import Mathlib

/-!
Verification of the mechanism layer of BioCRNPyler (`mechanism.py`).

The file embeds the reaction-generation mechanisms of `mechanism.py` as
Lean functions and proves the specified properties about them.  The
species / reaction data model (`Species`, `ComplexSpecies`, `Reaction`,
`Component` from `chemical_reaction_network.py` and `component.py`) is
not part of the translated source; it is modelled from the spec's data
model section: a species is identified by name and material type, a
complex species by the multiset of its constituents plus an optional
explicit name, a reaction by inputs, outputs, optional stoichiometric
coefficients, a forward rate and an optional reverse rate.
-/

/-- Modelled from the spec: the species identity model of
`chemical_reaction_network.py` (not in the translated source).  A species
is either a base species identified by `(name, material_type)` or a
complex species identified by its list of constituent species together
with an optional explicit name. -/
inductive SpeciesT where
  | base (name material_type : String)
  | complx (parts : List SpeciesT) (name : Option String)

mutual

/-- Structural boolean equality on species. -/
def SpeciesT.beq : SpeciesT → SpeciesT → Bool
  | .base n m, .base n' m' => n == n' && m == m'
  | .complx ps nm, .complx ps' nm' => SpeciesT.beqList ps ps' && nm == nm'
  | _, _ => false

/-- Structural boolean equality on lists of species. -/
def SpeciesT.beqList : List SpeciesT → List SpeciesT → Bool
  | [], [] => true
  | s :: r, s' :: r' => SpeciesT.beq s s' && SpeciesT.beqList r r'
  | _, _ => false

end

mutual

theorem SpeciesT.beq_iff : ∀ a b : SpeciesT, SpeciesT.beq a b = true ↔ a = b
  | .base n m, .base n' m' => by simp [SpeciesT.beq]
  | .base _ _, .complx _ _ => by simp [SpeciesT.beq]
  | .complx _ _, .base _ _ => by simp [SpeciesT.beq]
  | .complx ps nm, .complx ps' nm' => by
      simp [SpeciesT.beq, SpeciesT.beqList_iff ps ps']

theorem SpeciesT.beqList_iff : ∀ a b : List SpeciesT,
    SpeciesT.beqList a b = true ↔ a = b
  | [], [] => by simp [SpeciesT.beqList]
  | [], _ :: _ => by simp [SpeciesT.beqList]
  | _ :: _, [] => by simp [SpeciesT.beqList]
  | s :: r, s' :: r' => by
      simp [SpeciesT.beqList, SpeciesT.beq_iff s s', SpeciesT.beqList_iff r r']

end

instance : DecidableEq SpeciesT :=
  fun a b => decidable_of_iff _ (SpeciesT.beq_iff a b)

mutual

/-- Modelled from the spec: the `name` attribute of a species.  A base
species carries its name; a complex species carries its explicit name
when one was supplied and otherwise a stable derived name (the spec
leaves the derivation formula unspecified; it is modelled as the
underscore-joined constituent names behind a `complex` marker). -/
def SpeciesT.name : SpeciesT → String
  | .base n _ => n
  | .complx _ (some n) => n
  | .complx ps none => "complex_" ++ SpeciesT.joinedNames ps

/-- Underscore-joined names of a list of species. -/
def SpeciesT.joinedNames : List SpeciesT → String
  | [] => ""
  | [s] => SpeciesT.name s
  | s :: r => SpeciesT.name s ++ "_" ++ SpeciesT.joinedNames r

end

/-- Modelled from the spec: the `material_type` attribute of a species;
a complex species has material type `complex`. -/
def SpeciesT.material_type : SpeciesT → String
  | .base _ m => m
  | .complx _ _ => "complex"

/-- Fuel-indexed helper computing the decimal digit characters of a
natural number, most significant digit first; `fuel` bounds the
recursion depth and any fuel above the argument is sufficient. -/
def natToCharsAux : Nat → Nat → List Char
  | 0, _ => []
  | fuel + 1, n =>
    if n < 10 then [Char.ofNat (48 + n)]
    else natToCharsAux fuel (n / 10) ++ [Char.ofNat (48 + n % 10)]

/-- Decimal digit characters of a natural number, most significant digit
first.  This models the rendering of a Python `int` inside an f-string
(`str(n)`). -/
def natToChars (n : Nat) : List Char := natToCharsAux (n + 1) n

/-- Decimal string of a natural number (Python `str(n)`). -/
def natToStr (n : Nat) : String := ⟨natToChars n⟩

/-- Errors raised by the translated code; every raise in `mechanism.py`
and every failing tuple unpacking is a Python `ValueError`. -/
inductive PyError where
  | valueError (msg : String)
deriving DecidableEq

/-- Modelled from the spec: the reaction model of
`chemical_reaction_network.py` (not in the translated source).  Inputs
and outputs are species lists with implicit coefficient 1 unless
explicit coefficient lists are given; `k` is the forward rate and
`k_rev`, when present, the reverse rate of a reversible reaction. -/
structure Reaction where
  inputs : List SpeciesT
  outputs : List SpeciesT
  k : ℚ
  k_rev : Option ℚ := none
  input_coefs : Option (List Nat) := none
  output_coefs : Option (List Nat) := none
deriving DecidableEq

/-- Python tuple unpacking `a, b = xs`: succeeds exactly on 2-element
sequences and raises a `ValueError` otherwise. -/
def unpack2 {α : Type} : List α → Except PyError (α × α)
  | [a, b] => .ok (a, b)
  | [] => .error (.valueError "not enough values to unpack")
  | [_] => .error (.valueError "not enough values to unpack")
  | _ => .error (.valueError "too many values to unpack")

/-- Input species of a reaction expanded by their stoichiometric
coefficients (implicit coefficient 1 when no coefficient list is given). -/
def Reaction.expandedInputs (r : Reaction) : List SpeciesT :=
  match r.input_coefs with
  | none => r.inputs
  | some cs => (r.inputs.zip cs).flatMap fun p => List.replicate p.2 p.1

/-- Composition of a list of species into an (unnamed) complex. -/
def composeComplex (l : List SpeciesT) : SpeciesT := .complx l none

/-- Modelled from the spec: the identity of a complex species is the
multiset of its constituents together with its optional explicit name;
a non-complex species has no complex identity. -/
def complexId : SpeciesT → Option (Multiset SpeciesT × Option String)
  | .base _ _ => none
  | .complx ps nm => some (↑ps, nm)

/-- Modelled from the spec: a `Component` (from `component.py`, not in
the translated source) as far as the mechanism constructors use it: an
object exposing a possibly-resolvable species via `get_species()`. -/
structure ComponentT where
  get_species : Option SpeciesT
deriving DecidableEq

/-- The possible Python values passed as the enzyme / catalyst argument
of a mechanism constructor: a `Species`, a plain string, a `Component`,
or any other object. -/
inductive EnzymeArg where
  | species (s : SpeciesT)
  | str (s : String)
  | component (c : ComponentT)
  | other
deriving DecidableEq

/-- `MichalisMentenRXN.update_species`: `[ComplexSpecies([Sub, Enzyme])]`. -/
def MichalisMentenRXN.update_species (Enzyme Sub : SpeciesT) : List SpeciesT :=
  [.complx [Sub, Enzyme] none]

/-- `MichalisMentenRXN.update_reactions`: binding reaction
`Sub + Enz <-> Sub:Enz` and a catalytic reaction whose outputs are
`[Prod, Enz]` when a product is given and `[Enz]` otherwise; the complex
is the supplied one, or `ComplexSpecies([Sub, Enzyme])` when none is
supplied. -/
def MichalisMentenRXN.update_reactions (Enzyme Sub : SpeciesT)
    (prodSp : Option SpeciesT) (complex : Option SpeciesT := none)
    (kb : ℚ := 100) (ku : ℚ := 10) (kcat : ℚ := 1) : List Reaction :=
  let c := complex.getD (.complx [Sub, Enzyme] none)
  let binding_rxn : Reaction :=
    { inputs := [Sub, Enzyme], outputs := [c], k := kb, k_rev := some ku }
  let cat_rxn : Reaction :=
    match prodSp with
    | some p => { inputs := [c], outputs := [p, Enzyme], k := kcat }
    | none => { inputs := [c], outputs := [Enzyme], k := kcat }
  [binding_rxn, cat_rxn]

/-- `MichalisMentenCopyRXN.update_species`: `[ComplexSpecies([Sub, Enzyme])]`. -/
def MichalisMentenCopyRXN.update_species (Enzyme Sub : SpeciesT) : List SpeciesT :=
  [.complx [Sub, Enzyme] none]

/-- `MichalisMentenCopyRXN.update_reactions`: binding reaction
`Sub + Enz <-> Sub:Enz` and the catalytic reaction
`Sub:Enz -> Sub + Prod + Enz` (the substrate is regenerated). -/
def MichalisMentenCopyRXN.update_reactions (Enzyme Sub prodSp : SpeciesT)
    (complex : Option SpeciesT := none)
    (kb : ℚ := 100) (ku : ℚ := 10) (kcat : ℚ := 1) : List Reaction :=
  let c := complex.getD (.complx [Sub, Enzyme] none)
  let binding_rxn : Reaction :=
    { inputs := [Sub, Enzyme], outputs := [c], k := kb, k_rev := some ku }
  let cat_rxn : Reaction :=
    { inputs := [c], outputs := [Sub, prodSp, Enzyme], k := kcat }
  [binding_rxn, cat_rxn]

/-- `Transcription_MM.__init__` restricted to the resolution of its
`rnap` argument: a `Species` is taken as is, a string is wrapped as a
protein-typed species, a `Component` with a resolvable species yields
that species, and anything else raises a `ValueError`. -/
def Transcription_MM.init (rnap : EnzymeArg) : Except PyError SpeciesT :=
  match rnap with
  | .species s => .ok s
  | .str s => .ok (.base s "protein")
  | .component c =>
      match c.get_species with
      | some s => .ok s
      | none => .error (.valueError
          "rnap parameter must be a string, a Component with defined get_species, or a chemical_reaction_network.species")
  | .other => .error (.valueError
      "rnap parameter must be a string, a Component with defined get_species, or a chemical_reaction_network.species")

/-- `Transcription_MM.update_species`: the RNAP species when requested,
the substrate-enzyme complex, and the retyped transcript when requested. -/
def Transcription_MM.update_species (rnap dna : SpeciesT)
    (return_transcript : Bool := false) (return_rnap : Bool := false) :
    List SpeciesT :=
  (if return_rnap then [rnap] else [])
    ++ MichalisMentenCopyRXN.update_species rnap dna
    ++ (if return_transcript then [.base dna.name "rna"] else [])

/-- `Transcription_MM.update_reactions`: copy-type Michaelis-Menten
reactions with the transcript defaulting to a species with the DNA's
name retyped as `rna`. -/
def Transcription_MM.update_reactions (rnap dna : SpeciesT) (kb ku ktx : ℚ)
    (complex : Option SpeciesT := none) (transcript : Option SpeciesT := none) :
    List Reaction :=
  let t := transcript.getD (.base dna.name "rna")
  MichalisMentenCopyRXN.update_reactions rnap dna t complex kb ku ktx

/-- `Translation_MM.__init__` restricted to the resolution of its
`ribosome` argument: a `Species` is taken as is, a string is wrapped as
a ribosome-typed species, a `Component` with a resolvable species
yields that species, and anything else raises a `ValueError`. -/
def Translation_MM.init (ribosome : EnzymeArg) : Except PyError SpeciesT :=
  match ribosome with
  | .species s => .ok s
  | .str s => .ok (.base s "ribosome")
  | .component c =>
      match c.get_species with
      | some s => .ok s
      | none => .error (.valueError
          "ribosome parameter must be a string, a Component with defined get_species, or a chemical_reaction_network.species")
  | .other => .error (.valueError
      "ribosome parameter must be a string, a Component with defined get_species, or a chemical_reaction_network.species")

/-- `Translation_MM.update_reactions`: copy-type Michaelis-Menten
reactions with the protein defaulting to a species with the
transcript's name retyped as `protein`. -/
def Translation_MM.update_reactions (ribosome transcript : SpeciesT)
    (kb ku ktl : ℚ) (complex : Option SpeciesT := none)
    (protein : Option SpeciesT := none) : List Reaction :=
  let p := protein.getD (.base transcript.name "protein")
  MichalisMentenCopyRXN.update_reactions ribosome transcript p complex kb ku ktl

/-- `Degredation_mRNA_MM.__init__` restricted to the resolution of its
`nuclease` argument: only a `Species` or a string (wrapped as a
protein-typed species) is accepted; every other argument, including a
`Component`, raises a `ValueError`. -/
def Degredation_mRNA_MM.init (nuclease : EnzymeArg) : Except PyError SpeciesT :=
  match nuclease with
  | .species s => .ok s
  | .str s => .ok (.base s "protein")
  | .component _ => .error (.valueError
      "nuclease parameter requires a chemical_reaction_network.species or a string")
  | .other => .error (.valueError
      "nuclease parameter requires a chemical_reaction_network.species or a string")

/-- `Degredation_mRNA_MM.update_species`: the nuclease when requested
and the rna-nuclease complex. -/
def Degredation_mRNA_MM.update_species (nuclease rna : SpeciesT)
    (return_nuclease : Bool := false) : List SpeciesT :=
  (if return_nuclease then [nuclease] else [])
    ++ MichalisMentenRXN.update_species nuclease rna

/-- `Degredation_mRNA_MM.update_reactions`: consuming-type
Michaelis-Menten reactions with no product (`Prod=None`). -/
def Degredation_mRNA_MM.update_reactions (nuclease rna : SpeciesT)
    (kb ku kdeg : ℚ) (complex : Option SpeciesT := none) : List Reaction :=
  MichalisMentenRXN.update_reactions nuclease rna none complex kb ku kdeg

/-- `Reversible_Bimolecular_Binding.update_species`:
`[ComplexSpecies([s1, s2])]`. -/
def Reversible_Bimolecular_Binding.update_species (s1 s2 : SpeciesT) :
    List SpeciesT :=
  [.complx [s1, s2] none]

/-- `Reversible_Bimolecular_Binding.update_reactions`:
`s1 + s2 <-> ComplexSpecies([s1, s2])` with forward `kb`, reverse `ku`. -/
def Reversible_Bimolecular_Binding.update_reactions (s1 s2 : SpeciesT)
    (kb ku : ℚ) : List Reaction :=
  let c : SpeciesT := .complx [s1, s2] none
  [{ inputs := [s1, s2], outputs := [c], k := kb, k_rev := some ku }]

/-- The derived complex name of one-step cooperative binding:
`f"{binder.material_type}_{cooperativity}x{binder.name}_{bindee.material_type}_{bindee.name}"`. -/
def oneStepComplexName (binder bindee : SpeciesT) (cooperativity : Nat) : String :=
  binder.material_type ++ "_" ++ natToStr cooperativity ++ "x" ++ binder.name
    ++ "_" ++ bindee.material_type ++ "_" ++ bindee.name

/-- `One_Step_Cooperative_Binding.update_species`: the named complex of
binder and bindee. -/
def One_Step_Cooperative_Binding.update_species (s1 s2 : SpeciesT)
    (cooperativity : Nat := 1) : List SpeciesT :=
  [.complx [s1, s2] (some (oneStepComplexName s1 s2 cooperativity))]

/-- `One_Step_Cooperative_Binding.update_reactions`: the single reaction
`cooperativity·binder + bindee <-> complex` with explicit stoichiometric
coefficients `[cooperativity, 1]` and `[1]`. -/
def One_Step_Cooperative_Binding.update_reactions (s1 s2 : SpeciesT)
    (kb ku : ℚ) (cooperativity : Nat := 1) : List Reaction :=
  let c : SpeciesT := .complx [s1, s2] (some (oneStepComplexName s1 s2 cooperativity))
  [{ inputs := [s1, s2], outputs := [c], k := kb, k_rev := some ku,
     input_coefs := some [cooperativity, 1], output_coefs := some [1] }]

/-- The derived n-mer name of two-step cooperative binding:
`f"{cooperativity}x_{binder.material_type}_{binder.name}"`. -/
def twoStepNMerName (binder : SpeciesT) (cooperativity : Nat) : String :=
  natToStr cooperativity ++ "x_" ++ binder.material_type ++ "_" ++ binder.name

/-- `Two_Step_Cooperative_Binding.update_species`: the final complex
`ComplexSpecies([n_mer, bindee])` followed by the intermediate n-mer. -/
def Two_Step_Cooperative_Binding.update_species (s1 s2 : SpeciesT)
    (cooperativity : Nat := 2) : List SpeciesT :=
  let n_mer : SpeciesT := .complx [s1] (some (twoStepNMerName s1 cooperativity))
  [.complx [n_mer, s2] none, n_mer]

/-- `Two_Step_Cooperative_Binding.update_reactions`.  The source first
evaluates the chained comparison `len(kb) != len(ku) != 2` (which in
Python means `len(kb) != len(ku) and len(ku) != 2`) and raises a
`ValueError` when it holds; it then unpacks `kb1, kb2 = kb` and
`ku1, ku2 = ku`, each of which raises a `ValueError` on a sequence of
length other than two; on success it returns the oligomerization step
`cooperativity·binder <-> n_mer` and the binding step
`n_mer + bindee <-> ComplexSpecies([n_mer, bindee])`. -/
def Two_Step_Cooperative_Binding.update_reactions (s1 s2 : SpeciesT)
    (kb ku : List ℚ) (cooperativity : Nat := 2) :
    Except PyError (List Reaction) :=
  if kb.length ≠ ku.length ∧ ku.length ≠ 2 then
    .error (.valueError "kb and ku must contain 2 values each for two-step binding")
  else
    match unpack2 kb with
    | .error e => .error e
    | .ok (kb1, kb2) =>
      match unpack2 ku with
      | .error e => .error e
      | .ok (ku1, ku2) =>
        let n_mer : SpeciesT := .complx [s1] (some (twoStepNMerName s1 cooperativity))
        let c : SpeciesT := .complx [n_mer, s2] none
        .ok [{ inputs := [s1], outputs := [n_mer], k := kb1, k_rev := some ku1,
               input_coefs := some [cooperativity], output_coefs := some [1] },
             { inputs := [n_mer, s2], outputs := [c], k := kb2, k_rev := some ku2 }]

/-- C3: for a Transcription_MM mechanism with RNAP enzyme and a DNA
species named `geneA`, `update_species` returns the complex of
(geneA, RNAP), and `update_reactions` with kb=100, ku=10, ktx=1 returns
exactly the reversible binding reaction `geneA + RNAP <-> Complex`
(k=100, k_rev=10) and the irreversible catalytic reaction
`Complex -> geneA + mRNA_geneA + RNAP` (k=1) whose outputs are, as a
multiset, geneA, RNAP and a transcript named `geneA` of material type
`rna`. -/
theorem transcription_mm_scenario :
    Transcription_MM.init (.str "RNAP") = .ok (.base "RNAP" "protein") ∧
    Transcription_MM.update_species (.base "RNAP" "protein")
        (.base "geneA" "dna") false false
      = [.complx [.base "geneA" "dna", .base "RNAP" "protein"] none] ∧
    Transcription_MM.update_reactions (.base "RNAP" "protein")
        (.base "geneA" "dna") 100 10 1 none none
      = [{ inputs := [.base "geneA" "dna", .base "RNAP" "protein"],
           outputs := [.complx [.base "geneA" "dna", .base "RNAP" "protein"] none],
           k := 100, k_rev := some 10 },
         { inputs := [.complx [.base "geneA" "dna", .base "RNAP" "protein"] none],
           outputs := [.base "geneA" "dna", .base "geneA" "rna", .base "RNAP" "protein"],
           k := 1 }] ∧
    (↑[SpeciesT.base "geneA" "dna", .base "geneA" "rna", .base "RNAP" "protein"]
        : Multiset SpeciesT)
      = ↑[SpeciesT.base "geneA" "dna", .base "RNAP" "protein", .base "geneA" "rna"] := by
  refine ⟨rfl, rfl, rfl, ?_⟩
  decide

/-- C4: for a Degredation_mRNA_MM mechanism with nuclease `RNAase` and
an RNA species `mRNA_geneA`, `update_reactions` with kb=50, ku=5,
kdeg=2 returns exactly the reversible binding reaction
`mRNA_geneA + RNAase <-> Complex` (k=50, k_rev=5) and the irreversible
catalytic reaction `Complex -> RNAase` (k=2), with no product species
anywhere. -/
theorem degradation_mm_scenario :
    Degredation_mRNA_MM.init (.str "RNAase") = .ok (.base "RNAase" "protein") ∧
    Degredation_mRNA_MM.update_reactions (.base "RNAase" "protein")
        (.base "mRNA_geneA" "rna") 50 5 2 none
      = [{ inputs := [.base "mRNA_geneA" "rna", .base "RNAase" "protein"],
           outputs := [.complx [.base "mRNA_geneA" "rna", .base "RNAase" "protein"] none],
           k := 50, k_rev := some 5 },
         { inputs := [.complx [.base "mRNA_geneA" "rna", .base "RNAase" "protein"] none],
           outputs := [.base "RNAase" "protein"],
           k := 2 }] :=
  ⟨rfl, rfl⟩

/-- C6: for every binder, bindee, cooperativity and 2-element kb and ku,
`Two_Step_Cooperative_Binding.update_species` returns the final complex
`Complex(n-mer, bindee)` and the intermediate n-mer, and
`update_reactions` returns exactly the two reversible reactions
`cooperativity·binder <-> n-mer` (forward kb[0], reverse ku[0]) and
`n-mer + bindee <-> Complex(n-mer, bindee)` (forward kb[1], reverse
ku[1]), where the n-mer's derived name is the cooperativity followed by
the binder's material type and name. -/
theorem two_step_species_and_reactions (binder bindee : SpeciesT) (n : Nat)
    (kb1 kb2 ku1 ku2 : ℚ) :
    Two_Step_Cooperative_Binding.update_species binder bindee n
      = [.complx [.complx [binder] (some (twoStepNMerName binder n)), bindee] none,
         .complx [binder] (some (twoStepNMerName binder n))] ∧
    twoStepNMerName binder n
      = natToStr n ++ "x_" ++ binder.material_type ++ "_" ++ binder.name ∧
    Two_Step_Cooperative_Binding.update_reactions binder bindee [kb1, kb2] [ku1, ku2] n
      = .ok [{ inputs := [binder],
               outputs := [.complx [binder] (some (twoStepNMerName binder n))],
               k := kb1, k_rev := some ku1,
               input_coefs := some [n], output_coefs := some [1] },
             { inputs := [.complx [binder] (some (twoStepNMerName binder n)), bindee],
               outputs := [.complx [.complx [binder] (some (twoStepNMerName binder n)), bindee] none],
               k := kb2, k_rev := some ku2 }] :=
  ⟨rfl, rfl, rfl⟩

/-- C8: for every substrate, enzyme, product and rates, a supplied
pre-built complex is referenced verbatim as the binding output and the
catalysis input of both Michaelis-Menten reaction families, and when no
complex is supplied both reactions reference the derived, unnamed
`Complex(S, E)`. -/
theorem mm_complex_argument (E S P c : SpeciesT) (kb ku kcat : ℚ) :
    MichalisMentenRXN.update_reactions E S (some P) (some c) kb ku kcat
      = [{ inputs := [S, E], outputs := [c], k := kb, k_rev := some ku },
         { inputs := [c], outputs := [P, E], k := kcat }] ∧
    MichalisMentenRXN.update_reactions E S none (some c) kb ku kcat
      = [{ inputs := [S, E], outputs := [c], k := kb, k_rev := some ku },
         { inputs := [c], outputs := [E], k := kcat }] ∧
    MichalisMentenCopyRXN.update_reactions E S P (some c) kb ku kcat
      = [{ inputs := [S, E], outputs := [c], k := kb, k_rev := some ku },
         { inputs := [c], outputs := [S, P, E], k := kcat }] ∧
    MichalisMentenRXN.update_reactions E S (some P) none kb ku kcat
      = [{ inputs := [S, E], outputs := [.complx [S, E] none], k := kb, k_rev := some ku },
         { inputs := [.complx [S, E] none], outputs := [P, E], k := kcat }] ∧
    MichalisMentenRXN.update_reactions E S none none kb ku kcat
      = [{ inputs := [S, E], outputs := [.complx [S, E] none], k := kb, k_rev := some ku },
         { inputs := [.complx [S, E] none], outputs := [E], k := kcat }] ∧
    MichalisMentenCopyRXN.update_reactions E S P none kb ku kcat
      = [{ inputs := [S, E], outputs := [.complx [S, E] none], k := kb, k_rev := some ku },
         { inputs := [.complx [S, E] none], outputs := [S, P, E], k := kcat }] :=
  ⟨rfl, rfl, rfl, rfl, rfl, rfl⟩

/-- C9: a catalytic mechanism constructor given an enzyme / catalyst
argument that is neither a Species, a string, nor (for Transcription_MM
and Translation_MM) a Component with a resolvable species raises a
ValueError; Degredation_mRNA_MM accepts only a Species or a string and
fails construction for every other argument, including every Component. -/
theorem catalyst_argument_validation :
    (∀ s : SpeciesT, Degredation_mRNA_MM.init (.species s) = .ok s) ∧
    (∀ s : String, Degredation_mRNA_MM.init (.str s) = .ok (.base s "protein")) ∧
    (∀ c : ComponentT, ∃ msg,
        Degredation_mRNA_MM.init (.component c) = .error (.valueError msg)) ∧
    (∃ msg, Degredation_mRNA_MM.init .other = .error (.valueError msg)) ∧
    (∃ msg, Transcription_MM.init .other = .error (.valueError msg)) ∧
    (∃ msg, Translation_MM.init .other = .error (.valueError msg)) ∧
    (∃ msg, Transcription_MM.init (.component ⟨none⟩) = .error (.valueError msg)) ∧
    (∃ msg, Translation_MM.init (.component ⟨none⟩) = .error (.valueError msg)) ∧
    (∀ s : SpeciesT, Transcription_MM.init (.component ⟨some s⟩) = .ok s) ∧
    (∀ s : SpeciesT, Translation_MM.init (.component ⟨some s⟩) = .ok s) :=
  ⟨fun _ => rfl, fun _ => rfl, fun _ => ⟨_, rfl⟩, ⟨_, rfl⟩, ⟨_, rfl⟩, ⟨_, rfl⟩,
   ⟨_, rfl⟩, ⟨_, rfl⟩, fun _ => rfl, fun _ => rfl⟩

/-- C10: a plain name string passed as the catalyst is wrapped as a
species whose name is the given string, with material type `protein`
for Transcription_MM and Degredation_mRNA_MM and `ribosome` for
Translation_MM. -/
theorem string_catalyst_wrapping (s : String) :
    Transcription_MM.init (.str s) = .ok (.base s "protein") ∧
    Translation_MM.init (.str s) = .ok (.base s "ribosome") ∧
    Degredation_mRNA_MM.init (.str s) = .ok (.base s "protein") ∧
    (SpeciesT.base s "protein").name = s ∧
    (SpeciesT.base s "ribosome").name = s :=
  ⟨rfl, rfl, rfl, rfl, rfl⟩

/-- Python 2-tuple unpacking fails with a ValueError on every sequence
whose length is not 2. -/
theorem unpack2_error {α : Type} (l : List α) (h : l.length ≠ 2) :
    ∃ msg, unpack2 l = .error (.valueError msg) := by
  match l with
  | [] => exact ⟨_, rfl⟩
  | [_] => exact ⟨_, rfl⟩
  | [_, _] => simp at h
  | _ :: _ :: _ :: _ => exact ⟨_, rfl⟩

/-- C1: for every pair of rate sequences kb and ku in which kb or ku
has length different from 2, `Two_Step_Cooperative_Binding.update_reactions`
fails with a ValueError: either because the explicit length check
raises, or because the following tuple unpacking of `kb` or `ku`
raises. -/
theorem two_step_arity_value_error (s1 s2 : SpeciesT) (n : Nat) (kb ku : List ℚ)
    (h : kb.length ≠ 2 ∨ ku.length ≠ 2) :
    ∃ msg, Two_Step_Cooperative_Binding.update_reactions s1 s2 kb ku n
      = .error (.valueError msg) := by
  unfold Two_Step_Cooperative_Binding.update_reactions
  by_cases hc : kb.length ≠ ku.length ∧ ku.length ≠ 2
  · rw [if_pos hc]
    exact ⟨_, rfl⟩
  · rw [if_neg hc]
    have hkb : kb.length ≠ 2 := by
      rcases h with h | h
      · exact h
      · intro hkb2
        exact hc ⟨by omega, h⟩
    obtain ⟨msg, hm⟩ := unpack2_error kb hkb
    rw [hm]
    exact ⟨msg, rfl⟩

/-- Witness for C1 at kb of length 3 and ku of length 2, an input on
which the explicit length check passes and the unpacking raises. -/
theorem two_step_arity_value_error_witness :
    ∃ msg, Two_Step_Cooperative_Binding.update_reactions (.base "A" "protein")
        (.base "B" "dna") [1, 2, 3] [4, 5] 2 = .error (.valueError msg) :=
  two_step_arity_value_error (.base "A" "protein") (.base "B" "dna") 2
    [1, 2, 3] [4, 5] (Or.inl (by decide))

/-- Value of a digit character. -/
theorem toNat_digit_char (d : Nat) (h : d < 10) :
    (Char.ofNat (48 + d)).toNat = 48 + d := by
  interval_cases d <;> decide

/-- Any two sufficient fuels compute the same digit list. -/
theorem natToCharsAux_fuel : ∀ (f1 f2 n : Nat), n < f1 → n < f2 →
    natToCharsAux f1 n = natToCharsAux f2 n := by
  intro f1
  induction f1 with
  | zero =>
    intro f2 n h1 _
    exact (Nat.not_lt_zero n h1).elim
  | succ f ih =>
    intro f2 n h1 h2
    cases f2 with
    | zero => exact (Nat.not_lt_zero n h2).elim
    | succ g =>
      show (if n < 10 then [Char.ofNat (48 + n)]
          else natToCharsAux f (n / 10) ++ [Char.ofNat (48 + n % 10)])
        = (if n < 10 then [Char.ofNat (48 + n)]
          else natToCharsAux g (n / 10) ++ [Char.ofNat (48 + n % 10)])
      by_cases h : n < 10
      · rw [if_pos h, if_pos h]
      · rw [if_neg h, if_neg h]
        congr 1
        exact ih g (n / 10) (by omega) (by omega)

/-- Unfolding of `natToChars` on a single digit. -/
theorem natToChars_small (n : Nat) (h : n < 10) :
    natToChars n = [Char.ofNat (48 + n)] := by
  simp only [natToChars]
  show (if n < 10 then [Char.ofNat (48 + n)]
    else natToCharsAux n (n / 10) ++ [Char.ofNat (48 + n % 10)]) = _
  rw [if_pos h]

/-- Unfolding of `natToChars` on a multi-digit number. -/
theorem natToChars_large (n : Nat) (h : ¬ n < 10) :
    natToChars n = natToChars (n / 10) ++ [Char.ofNat (48 + n % 10)] := by
  simp only [natToChars]
  show (if n < 10 then [Char.ofNat (48 + n)]
      else natToCharsAux n (n / 10) ++ [Char.ofNat (48 + n % 10)]) = _
  rw [if_neg h]
  congr 1
  exact natToCharsAux_fuel n (n / 10 + 1) (n / 10) (by omega) (by omega)

/-- The digit list of a natural number is never empty. -/
theorem natToChars_ne_nil (n : Nat) : natToChars n ≠ [] := by
  by_cases h : n < 10
  · rw [natToChars_small n h]
    simp
  · rw [natToChars_large n h]
    simp

/-- Every character of a decimal rendering is a digit ('0'..'9'). -/
theorem natToChars_digits (n : Nat) : ∀ c ∈ natToChars n, c.toNat ≤ 57 := by
  induction n using Nat.strong_induction_on with
  | _ n ih =>
    by_cases h : n < 10
    · rw [natToChars_small n h]
      intro c hc
      rw [List.mem_singleton] at hc
      subst hc
      rw [toNat_digit_char n h]
      omega
    · rw [natToChars_large n h]
      intro c hc
      rw [List.mem_append] at hc
      rcases hc with hc | hc
      · exact ih (n / 10) (Nat.div_lt_self (by omega) (by omega)) c hc
      · rw [List.mem_singleton] at hc
        subst hc
        rw [toNat_digit_char (n % 10) (Nat.mod_lt _ (by omega))]
        omega

/-- No character of a decimal rendering is the letter `x`. -/
theorem natToChars_ne_x (n : Nat) : ∀ c ∈ natToChars n, c ≠ 'x' := by
  intro c hc he
  have hd := natToChars_digits n c hc
  rw [he] at hd
  revert hd
  decide

/-- Decimal renderings are injective. -/
theorem natToChars_injective (n : Nat) :
    ∀ m, natToChars n = natToChars m → n = m := by
  induction n using Nat.strong_induction_on with
  | _ n ih =>
    intro m h
    by_cases hn : n < 10 <;> by_cases hm : m < 10
    · rw [natToChars_small n hn, natToChars_small m hm] at h
      have hc : (Char.ofNat (48 + n)).toNat = (Char.ofNat (48 + m)).toNat := by
        rw [List.cons.injEq] at h
        rw [h.1]
      rw [toNat_digit_char n hn, toNat_digit_char m hm] at hc
      omega
    · exfalso
      rw [natToChars_small n hn, natToChars_large m hm] at h
      have hl : (1 : Nat) = (natToChars (m / 10)).length + 1 := by
        simpa using congrArg List.length h
      exact natToChars_ne_nil (m / 10) (List.length_eq_zero.mp (by omega))
    · exfalso
      rw [natToChars_large n hn, natToChars_small m hm] at h
      have hl : (natToChars (n / 10)).length + 1 = (1 : Nat) := by
        simpa using congrArg List.length h
      exact natToChars_ne_nil (n / 10) (List.length_eq_zero.mp (by omega))
    · rw [natToChars_large n hn, natToChars_large m hm] at h
      obtain ⟨h1, h2⟩ := List.append_inj' h (by simp)
      have hdiv : n / 10 = m / 10 :=
        ih (n / 10) (Nat.div_lt_self (by omega) (by omega)) (m / 10) h1
      have hc : (Char.ofNat (48 + n % 10)).toNat
          = (Char.ofNat (48 + m % 10)).toNat := by
        rw [List.cons.injEq] at h2
        rw [h2.1]
      rw [toNat_digit_char (n % 10) (Nat.mod_lt _ (by omega)),
          toNat_digit_char (m % 10) (Nat.mod_lt _ (by omega))] at hc
      omega

/-- Cancellation around a separator character that occurs in neither
prefix: equal lists of the shape `l ++ sep :: s` have equal prefixes. -/
theorem append_sep_cancel (sep : Char) (l1 : List Char) :
    ∀ (l2 s : List Char), (∀ c ∈ l1, c ≠ sep) → (∀ c ∈ l2, c ≠ sep) →
      l1 ++ sep :: s = l2 ++ sep :: s → l1 = l2 := by
  induction l1 with
  | nil =>
    intro l2 s _ h2 h
    cases l2 with
    | nil => rfl
    | cons b t =>
      exfalso
      simp only [List.nil_append, List.cons_append, List.cons.injEq] at h
      exact h2 b (by simp) h.1.symm
  | cons a t ih =>
    intro l2 s h1 h2 h
    cases l2 with
    | nil =>
      exfalso
      simp only [List.nil_append, List.cons_append, List.cons.injEq] at h
      exact h1 a (by simp) h.1
    | cons b t2 =>
      simp only [List.cons_append, List.cons.injEq] at h
      rw [h.1, ih t2 s (fun c hc => h1 c (by simp [hc]))
        (fun c hc => h2 c (by simp [hc])) h.2]

/-- Two distinct cooperativity values yield distinct derived one-step
complex names for the same binder and bindee. -/
theorem oneStepComplexName_coop_injective (binder bindee : SpeciesT) (n m : Nat)
    (hnm : n ≠ m) :
    oneStepComplexName binder bindee n ≠ oneStepComplexName binder bindee m := by
  intro he
  apply hnm
  apply natToChars_injective n m
  have hd := congrArg String.data he
  have hx : ("x" : String).data = ['x'] := rfl
  have hu : ("_" : String).data = ['_'] := rfl
  have hmk : ∀ l : List Char, (String.mk l).data = l := fun _ => rfl
  simp only [oneStepComplexName, natToStr, String.data_append, hx, hu, hmk,
    List.append_assoc, List.singleton_append, List.cons_append] at hd
  have hd2 := List.append_cancel_left hd
  rw [List.cons.injEq] at hd2
  exact append_sep_cancel 'x' (natToChars n) (natToChars m) _
    (natToChars_ne_x n) (natToChars_ne_x m) hd2.2

/-- C5: the single one-step cooperative binding reaction has input
coefficients `[cooperativity, 1]`, output coefficient `[1]`, and an
output complex whose derived name is
`binder-material _ cooperativity x binder-name _ bindee-material _
bindee-name`; distinct cooperativity values give distinct names. -/
theorem one_step_coefs_and_name (binder bindee : SpeciesT) (kb ku : ℚ) (n : Nat) :
    One_Step_Cooperative_Binding.update_reactions binder bindee kb ku n
      = [{ inputs := [binder, bindee],
           outputs := [.complx [binder, bindee]
             (some (oneStepComplexName binder bindee n))],
           k := kb, k_rev := some ku,
           input_coefs := some [n, 1], output_coefs := some [1] }] ∧
    oneStepComplexName binder bindee n
      = binder.material_type ++ "_" ++ natToStr n ++ "x" ++ binder.name ++ "_"
          ++ bindee.material_type ++ "_" ++ bindee.name ∧
    (∀ m : Nat, n ≠ m →
        oneStepComplexName binder bindee n ≠ oneStepComplexName binder bindee m) :=
  ⟨rfl, rfl, fun m hm => oneStepComplexName_coop_injective binder bindee n m hm⟩

/-- Witness for C5 at cooperativity 1 versus 2. -/
theorem one_step_coefs_and_name_witness :
    oneStepComplexName (.base "A" "protein") (.base "B" "dna") 1
      ≠ oneStepComplexName (.base "A" "protein") (.base "B" "dna") 2 :=
  (one_step_coefs_and_name (.base "A" "protein") (.base "B" "dna") 1 1 1).2.2
    2 (by decide)

/-- C2 (amended): every reaction produced by a binding mechanism has a
single output species, a complex whose constituent list equals the
reaction's input-species list taken once each (not expanded by
stoichiometric coefficients); the expanded-input composition equals the
output's complex identity for Reversible_Bimolecular_Binding and for
the second step of Two_Step_Cooperative_Binding, whose outputs are
unnamed complexes. -/
theorem binding_reaction_output_constituents (binder bindee : SpeciesT)
    (kb ku kb1 kb2 ku1 ku2 : ℚ) (n : Nat) :
    (∀ r ∈ Reversible_Bimolecular_Binding.update_reactions binder bindee kb ku,
        ∃ nm, r.outputs = [SpeciesT.complx r.inputs nm]) ∧
    (∀ r ∈ One_Step_Cooperative_Binding.update_reactions binder bindee kb ku n,
        ∃ nm, r.outputs = [SpeciesT.complx r.inputs nm]) ∧
    (∀ l, Two_Step_Cooperative_Binding.update_reactions binder bindee
          [kb1, kb2] [ku1, ku2] n = .ok l →
        ∀ r ∈ l, ∃ nm, r.outputs = [SpeciesT.complx r.inputs nm]) ∧
    (∀ r ∈ Reversible_Bimolecular_Binding.update_reactions binder bindee kb ku,
        complexId (composeComplex r.expandedInputs)
          = complexId (SpeciesT.complx r.inputs none)) ∧
    (∀ l, Two_Step_Cooperative_Binding.update_reactions binder bindee
          [kb1, kb2] [ku1, ku2] n = .ok l →
        ∀ r ∈ l.drop 1, complexId (composeComplex r.expandedInputs)
          = complexId (SpeciesT.complx r.inputs none)) := by
  refine ⟨?_, ?_, ?_, ?_, ?_⟩
  · intro r hr
    simp only [Reversible_Bimolecular_Binding.update_reactions,
      List.mem_singleton] at hr
    subst hr
    exact ⟨none, rfl⟩
  · intro r hr
    simp only [One_Step_Cooperative_Binding.update_reactions,
      List.mem_singleton] at hr
    subst hr
    exact ⟨some (oneStepComplexName binder bindee n), rfl⟩
  · intro l hl r hr
    have hl' : _ = l := Except.ok.inj hl
    rw [← hl'] at hr
    simp only [List.mem_cons, List.not_mem_nil, or_false] at hr
    rcases hr with rfl | rfl
    · exact ⟨some (twoStepNMerName binder n), rfl⟩
    · exact ⟨none, rfl⟩
  · intro r hr
    simp only [Reversible_Bimolecular_Binding.update_reactions,
      List.mem_singleton] at hr
    subst hr
    rfl
  · intro l hl r hr
    have hl' : _ = l := Except.ok.inj hl
    rw [← hl'] at hr
    simp only [List.drop, List.mem_cons, List.not_mem_nil, or_false] at hr
    subst hr
    rfl

/-- Witness for C2 at a concrete bimolecular binding reaction. -/
theorem binding_reaction_output_constituents_witness :
    ∃ nm, Reaction.outputs
        { inputs := [SpeciesT.base "A" "protein", SpeciesT.base "B" "dna"],
          outputs := [SpeciesT.complx
            [SpeciesT.base "A" "protein", SpeciesT.base "B" "dna"] none],
          k := 1, k_rev := some 1 }
      = [SpeciesT.complx [SpeciesT.base "A" "protein", SpeciesT.base "B" "dna"] nm] :=
  (binding_reaction_output_constituents (.base "A" "protein") (.base "B" "dna")
      1 1 1 1 1 1 2).1
    { inputs := [SpeciesT.base "A" "protein", SpeciesT.base "B" "dna"],
      outputs := [SpeciesT.complx
        [SpeciesT.base "A" "protein", SpeciesT.base "B" "dna"] none],
      k := 1, k_rev := some 1 }
    (by decide)

/-- C2 counterexample: for One_Step_Cooperative_Binding with
cooperativity 2, the multiset of input species expanded by the
stoichiometric coefficients contains the binder twice, while the output
complex contains it once and carries an explicit derived name, so the
composed complex and the output have different complex identities. -/
theorem one_step_mass_balance_counterexample :
    One_Step_Cooperative_Binding.update_reactions (.base "A" "protein")
        (.base "B" "dna") 1 1 2
      = [{ inputs := [.base "A" "protein", .base "B" "dna"],
           outputs := [.complx [.base "A" "protein", .base "B" "dna"]
             (some "protein_2xA_dna_B")],
           k := 1, k_rev := some 1,
           input_coefs := some [2, 1], output_coefs := some [1] }] ∧
    Reaction.expandedInputs
        { inputs := [.base "A" "protein", .base "B" "dna"],
          outputs := [.complx [.base "A" "protein", .base "B" "dna"]
            (some "protein_2xA_dna_B")],
          k := 1, k_rev := some 1,
          input_coefs := some [2, 1], output_coefs := some [1] }
      = [.base "A" "protein", .base "A" "protein", .base "B" "dna"] ∧
    complexId (composeComplex
        [.base "A" "protein", .base "A" "protein", .base "B" "dna"])
      ≠ complexId (.complx [.base "A" "protein", .base "B" "dna"]
          (some "protein_2xA_dna_B")) := by
  refine ⟨by decide, rfl, by decide⟩

/-- C7: the catalytic reaction of the consuming Michaelis-Menten family
outputs only the product (when given) and the enzyme, excluding the
substrate, while the copy family's catalytic reaction outputs the
substrate unchanged together with the product and the enzyme. -/
theorem mm_catalysis_substrate (E S P : SpeciesT) (c : Option SpeciesT)
    (kb ku kcat : ℚ) :
    (∃ r1, MichalisMentenRXN.update_reactions E S (some P) c kb ku kcat
        = [r1, { inputs := [c.getD (.complx [S, E] none)],
                 outputs := [P, E], k := kcat }]) ∧
    (∃ r1, MichalisMentenRXN.update_reactions E S none c kb ku kcat
        = [r1, { inputs := [c.getD (.complx [S, E] none)],
                 outputs := [E], k := kcat }]) ∧
    (∃ r1, MichalisMentenCopyRXN.update_reactions E S P c kb ku kcat
        = [r1, { inputs := [c.getD (.complx [S, E] none)],
                 outputs := [S, P, E], k := kcat }]) ∧
    (S ≠ P → S ≠ E → S ∉ ([P, E] : List SpeciesT)) ∧
    (S ≠ E → S ∉ ([E] : List SpeciesT)) ∧
    S ∈ ([S, P, E] : List SpeciesT) := by
  refine ⟨⟨_, rfl⟩, ⟨_, rfl⟩, ⟨_, rfl⟩, ?_, ?_, ?_⟩
  · intro h1 h2
    simp [h1, h2]
  · intro h2
    simp [h2]
  · simp

/-- Witness for C7 at concrete distinct substrate, product and enzyme. -/
theorem mm_catalysis_substrate_witness :
    (SpeciesT.base "S" "rna")
      ∉ ([SpeciesT.base "P" "protein", SpeciesT.base "E" "protein"] :
          List SpeciesT) :=
  (mm_catalysis_substrate (.base "E" "protein") (.base "S" "rna")
      (.base "P" "protein") none 1 1 1).2.2.2.1 (by decide) (by decide)
